import Mathlib

/-!
Verification of the content-stream watermark-removal engine of
WatermarkTerminator (`main.py`, class `Algorithm`).

Content streams are modelled as lists of lines, each line a `List Char`
(one logical instruction line of the page's content stream, exactly as
produced by `decode().splitlines()` in the source).  The pure rewriting
logic of `Algorithm.remove_background` and `Algorithm.remove_image2` is
embedded directly; the regular expressions of `remove_image2` are embedded
as character-level matchers with the same anchored / search semantics.
-/

/-! ## Character-list helpers -/

/-- Convert a string literal to the character-list representation used
throughout this development. -/
def s2l (s : String) : List Char := s.data

/-- `isPre p l` is true when `p` is a leading segment of `l`
(Python `str.startswith` restricted to what the source needs). -/
def isPre : List Char → List Char → Bool
  | [], _ => true
  | _ :: _, [] => false
  | a :: as, b :: bs => a == b && isPre as bs

/-- `isSub p l` is true when `p` occurs contiguously somewhere in `l`
(the Python `in` test on strings). -/
def isSub (p : List Char) : List Char → Bool
  | [] => isPre p []
  | c :: t => isPre p (c :: t) || isSub p t

/-! ## `Algorithm.remove_background` (main.py lines 453-470)

Source loop, per decoded line:
```
if line.startswith("/Artifact") and "/Watermark" in line: found = True; continue
if found and line == "EMC": found = False; continue
if found is False: cont1.append(line)
```
-/

/-- A line that opens a watermark artifact region:
`line.startswith("/Artifact") and "/Watermark" in line` (main.py line 461). -/
def isArtifactWatermark (l : List Char) : Bool :=
  isPre (s2l "/Artifact") l && isSub (s2l "/Watermark") l

/-- The per-line state machine of `remove_background`: `found` is the
`found` flag of the source (inside a watermark artifact region). -/
def rbGo : Bool → List (List Char) → List (List Char)
  | _, [] => []
  | found, line :: rest =>
    if isArtifactWatermark line then rbGo true rest
    else if found && line == s2l "EMC" then rbGo false rest
    else if found then rbGo found rest
    else line :: rbGo false rest

/-- `Algorithm.remove_background` on the decoded line sequence of a page
content stream: drops watermark artifact regions, keeps everything else. -/
def remove_background (cont0 : List (List Char)) : List (List Char) :=
  rbGo false cont0

/-- The final value of the `found` flag after `remove_background` has
consumed a line sequence (used to reason about concatenated inputs). -/
def rbState : Bool → List (List Char) → Bool
  | found, [] => found
  | found, line :: rest =>
    if isArtifactWatermark line then rbState true rest
    else if found && line == s2l "EMC" then rbState false rest
    else rbState found rest

/-- Python `str.splitlines` on the decoded stream (main.py line 457),
modelled for the line terminators `\n`, `\r\n` and `\r`.  `acc` holds the
current line, reversed. -/
def splitLinesAux (acc : List Char) : List Char → List (List Char)
  | [] => if acc.isEmpty then [] else [acc.reverse]
  | '\r' :: '\n' :: rest => acc.reverse :: splitLinesAux [] rest
  | '\r' :: rest => acc.reverse :: splitLinesAux [] rest
  | '\n' :: rest => acc.reverse :: splitLinesAux [] rest
  | c :: rest => splitLinesAux (c :: acc) rest

/-- `cont0 = doc.xrefStream(xref).decode().splitlines()`. -/
def splitLinesPy (cs : List Char) : List (List Char) :=
  splitLinesAux [] cs

/-- `"\n".join(cont1)` (main.py line 469). -/
def joinNL (ls : List (List Char)) : List Char :=
  List.intercalate ['\n'] ls

/-- The whole `remove_background` pass at the byte (character) level: what
`doc.updateStream` stores back, as a function of the decoded baseline
stream. -/
def remove_backgroundStream (cs : List Char) : List Char :=
  joinNL (remove_background (splitLinesPy cs))

/-! ## `Algorithm.remove_image2` (main.py lines 511-550)

Regexes of the source:
  pattern  = `/Ima?g?e?\d+ Do`   (used with `re.match`, anchored at line start)
  pattern2 = `[\d\. ]+ cm`       (used with `re.match`, anchored at line start)
  pattern3 = `/Im?g?e?(\d+) Do`  (used with `re.findall`, first match's group)
-/

/-- Consume one optional literal character (regex `c?`); the letters made
optional here never overlap with what follows, so greedy consumption is
exact. -/
def optC (c : Char) : List Char → List Char
  | [] => []
  | x :: r => if x == c then r else x :: r

/-- After `\d+` has consumed at least one digit: keep consuming digits,
then require the literal `" Do"` (anything may follow, as `re.match` only
anchors the start). -/
def afterDigitsDo : List Char → Bool
  | [] => false
  | c :: r => if c.isDigit then afterDigitsDo r else isPre (s2l " Do") (c :: r)

/-- Regex fragment `\d+ Do` as a prefix of the input. -/
def digitsThenDo : List Char → Bool
  | [] => false
  | c :: r => c.isDigit && afterDigitsDo r

/-- `pattern.match(line)`: anchored match of `/Ima?g?e?\d+ Do`. -/
def matchImDo (l : List Char) : Bool :=
  match l with
  | '/' :: 'I' :: 'm' :: r => digitsThenDo (optC 'e' (optC 'g' (optC 'a' r)))
  | _ => false

/-- Maximal run of leading digits and the remainder. -/
def spanDigits : List Char → List Char × List Char
  | [] => ([], [])
  | c :: r =>
    if c.isDigit then
      let (d, rest) := spanDigits r
      (c :: d, rest)
    else ([], c :: r)

/-- Regex fragment `(\d+) Do` as a prefix: the captured digit group, if
the fragment matches here. -/
def p3Digits (cs : List Char) : Option (List Char) :=
  let (d, rest) := spanDigits cs
  if d.isEmpty then none
  else if isPre (s2l " Do") rest then some d else none

/-- `pattern3` (`/Im?g?e?(\d+) Do`) matched at the start of `l`,
returning the captured digits. -/
def p3At (l : List Char) : Option (List Char) :=
  match l with
  | '/' :: 'I' :: r => p3Digits (optC 'e' (optC 'g' (optC 'm' r)))
  | _ => none

/-- `pattern3.findall(line)[0]`: the leftmost `pattern3` match in the
line, returning its digit group (`none` models an empty `findall`). -/
def findRef : List Char → Option (List Char)
  | [] => none
  | c :: r =>
    match p3At (c :: r) with
    | some d => some d
    | none => findRef r

/-- The matched-line test of the scan loop (main.py line 523):
`pattern.match(line) and pattern3.findall(line)[0] in image_list`.
Caveat: `pattern3` lacks the `a?` of `pattern`, so on any line whose
operator spelling contains the `a` — including the canonical
`/Image<digits> Do` — `pattern` matches while `findall` returns the
empty list, and `findall(line)[0]` raises `IndexError` in the source for
every target set.  This model treats such a line as unmatched and
continues; `findallCrash` below names exactly those lines, so statements
about completed runs of `remove_image2` are read either under hypotheses
that confine them to completed runs or under the absence of such lines. -/
def lineMatched (image_list : List (List Char)) (l : List Char) : Bool :=
  matchImDo l &&
    (match findRef l with
     | some d => image_list.contains d
     | none => false)

/-- A line on which the source's matched-line test itself raises
`IndexError` (main.py line 523): `pattern` matches but `pattern3.findall`
is empty — any `a`-spelling image operator, e.g. `/Image12 Do`.  On a
stream containing such a line the source's `remove_image2` aborts for
every target set, while `lineMatched` treats the line as unmatched. -/
def findallCrash (l : List Char) : Bool :=
  matchImDo l && (findRef l).isNone

/-- Indices of matched lines (`matched` in the source), scanning from
line index `i`. -/
def matchedFrom (image_list : List (List Char)) : Nat → List (List Char) → List Nat
  | _, [] => []
  | i, l :: ls =>
    if lineMatched image_list l then i :: matchedFrom image_list (i + 1) ls
    else matchedFrom image_list (i + 1) ls

/-- Character class `[\d\. ]` of `pattern2`. -/
def isCl2 (c : Char) : Bool := c.isDigit || c == '.' || c == ' '

/-- After at least one class character: either the literal `" cm"` starts
here, or one more class character is consumed (regex backtracking as an
existential over the split point). -/
def cmAfter : List Char → Bool
  | [] => false
  | c :: r => isPre (s2l " cm") (c :: r) || (isCl2 c && cmAfter r)

/-- `pattern2.match(line)`: anchored match of `[\d\. ]+ cm`. -/
def match2 : List Char → Bool
  | [] => false
  | c :: r => isCl2 c && cmAfter r

/-- Backward scan of the source (main.py lines 528-530):
`start = idx; while start > 0 and not pattern2.match(cont0[start]): start -= 1`.
Stops at the nearest preceding coordinate-transform line, or at 0. -/
def scanStart (cont0 : List (List Char)) : Nat → Nat
  | 0 => 0
  | s + 1 => if match2 (cont0.getD (s + 1) []) then s + 1 else scanStart cont0 s

/-- Forward half of the forward scan: first index `≥ i` holding the bare
line `"Q"`. -/
def seekQ : List (List Char) → Nat → Option Nat
  | [], _ => none
  | l :: r, i => if l == s2l "Q" then some i else seekQ r (i + 1)

/-- Forward scan of the source (main.py lines 532-534):
`end = idx; while cont0[end] != 'Q': end += 1`.  `none` models the
`IndexError` raised when no such line exists: the loop indexes past the
end of `cont0`. -/
def scanEnd (cont0 : List (List Char)) (idx : Nat) : Option Nat :=
  seekQ (cont0.drop idx) idx

/-- The index range one matched occurrence contributes to `excludes`
(main.py lines 527-540): `range(start, end)` unless the 10-line guard
skips it; `none` models the `IndexError` of the forward scan.  Note
`end ≥ idx ≥ start`, so `abs(end - start)` is `e - s`, and
`range(start, end)` stops one short of `end`. -/
def contrib (cont0 : List (List Char)) (idx : Nat) : Option (List Nat) :=
  match scanEnd cont0 idx with
  | none => none
  | some e =>
    let s := scanStart cont0 idx
    if e - s > 10 then some [] else some (List.range' s (e - s))

/-- The whole `excludes` accumulation over the matched indices; `none`
models the uncaught `IndexError` aborting `remove_image2`. -/
def excludesAll (cont0 : List (List Char)) : List Nat → Option (List Nat)
  | [] => some []
  | i :: rest =>
    match contrib cont0 i, excludesAll cont0 rest with
    | some c, some r => some (c ++ r)
    | _, _ => none

/-- `includes` / `cont1` construction (main.py lines 542-546): keep, in
order, every line whose index is not excluded. -/
def keepIdx (ex : List Nat) : Nat → List (List Char) → List (List Char)
  | _, [] => []
  | i, l :: r =>
    if ex.contains i then keepIdx ex (i + 1) r else l :: keepIdx ex (i + 1) r

/-- `Algorithm.remove_image2` on the decoded line sequence: the retained
line sequence, or `none` when the forward scan runs past the end of the
stream (`IndexError` in the source). -/
def remove_image2 (image_list : List (List Char)) (cont0 : List (List Char)) :
    Option (List (List Char)) :=
  match excludesAll cont0 (matchedFrom image_list 0 cont0) with
  | none => none
  | some ex => some (keepIdx ex 0 cont0)

/-! ## `Algorithm.remove_text` (main.py lines 472-478)

The external search / redaction calls are modelled as a trace: the list
of library calls the function makes, in order.  `areas` gives, for each
target string, how many occurrences `page.search_for` returns. -/

/-- One external call of `remove_text`. -/
inductive TCall
  | searchFor (t : List Char)
  | addRedactAnnot
  | applyRedactions
deriving DecidableEq

/-- `Algorithm.remove_text`: the trace of external calls.  `if not
text_list: return` short-circuits everything; otherwise each target is
searched, each hit registered, and one apply call ends the pass. -/
def remove_text (text_list : List (List Char)) (areas : List Char → Nat) : List TCall :=
  if text_list.isEmpty then []
  else
    (text_list.flatMap fun t => TCall.searchFor t :: List.replicate (areas t) TCall.addRedactAnnot)
      ++ [TCall.applyRedactions]

/-! ## Sanitize pre-flight and per-page call traces
(main.py `test_cleanContents` lines 496-509, `run` lines 563-587)

`test_cleanContents` opens the document, normalizes page one, and returns
`False` exactly when the library reports warnings; any exception raised
before the warning check leaves the flag `True`.  `run` computes this flag
once and passes it to `remove_background` and `remove_image3` for every
page; in both, `page.cleanContents(...)` is guarded by `if sanitize:`,
after which the stream is read via `page.getContents()` /
`doc.xrefStream(...)`. -/

/-- One per-page content-stream call made during processing. -/
inductive PCall
  | clean
  | readStream
deriving DecidableEq

/-- `Algorithm.test_cleanContents`: `raises` — an exception occurred
before the warning check (flag stays `True`); `warn` — the library
reported warnings for the page-one normalization probe. -/
def test_cleanContents (raises warn : Bool) : Bool :=
  if raises then true else !warn

/-- Call trace of `remove_background` (main.py lines 454-456). -/
def remove_backgroundCalls (sanitize : Bool) : List PCall :=
  (if sanitize then [PCall.clean] else []) ++ [PCall.readStream]

/-- Call trace of `remove_image3` (main.py lines 484-491): empty target
list returns before any call. -/
def remove_image3Calls (sanitize : Bool) (image_list : List (List Char)) : List PCall :=
  if image_list.isEmpty then []
  else (if sanitize then [PCall.clean] else []) ++ [PCall.readStream]

/-- Content-stream calls made while processing one page of `run`
(`remove_text` makes none). -/
def runPageCalls (sanitize : Bool) (image_list : List (List Char)) : List PCall :=
  remove_backgroundCalls sanitize ++ remove_image3Calls sanitize image_list

/-- Per-page call traces of one `run` job over `n` pages: the sanitize
flag is computed once by the pre-flight probe and reused for every page. -/
def runCalls (warn : Bool) (image_list : List (List Char)) (n : Nat) : List (List PCall) :=
  List.replicate n (runPageCalls (test_cleanContents false warn) image_list)

/-! ## Error propagation of `Algorithm.run` (main.py lines 563-587)

The whole page loop sits inside a single `try:`; on any exception the
`except:` clause prints the traceback (no `sinError` emission), and
`sinDone` is emitted afterwards in every case.  Each page is modelled by
a flag saying whether its stripping raised. -/

/-- Observable events of one `run` job. -/
inductive JEvent
  | progress (page : Nat)
  | consoleLog
  | errorEvent
  | doneEvent
deriving DecidableEq

/-- The page loop of `run`, starting at page number `i`: a raising page
aborts the loop with only a console print. -/
def runLoop : Nat → List Bool → List JEvent
  | _, [] => []
  | i, raises :: rest =>
    if raises then [JEvent.consoleLog]
    else JEvent.progress i :: runLoop (i + 1) rest

/-- One `run` job: the loop's events followed by the unconditional
`sinDone` emission. -/
def runJob (pageRaises : List Bool) : List JEvent :=
  runLoop 1 pageRaises ++ [JEvent.doneEvent]

/-! ## Well-formed artifact regions (for the completeness claim)

A content stream made of well-formed pieces: ordinary lines outside any
region, and watermark-artifact regions `begin-marker, body, "EMC"` whose
body contains no end-marker. -/

/-- One piece of a well-formed stream. -/
inductive RChunk
  | out (l : List Char)
  | region (b : List Char) (body : List (List Char))

/-- The lines a piece contributes to the input stream. -/
def RChunk.render : RChunk → List (List Char)
  | .out l => [l]
  | .region b body => b :: body ++ [s2l "EMC"]

/-- The lines a piece should contribute to the stripped output. -/
def RChunk.kept : RChunk → List (List Char)
  | .out l => [l]
  | .region _ _ => []

/-- Well-formedness: outside lines do not open a region; a region opens
with a watermark-artifact marker and its body holds no end-marker. -/
def RChunk.wf : RChunk → Bool
  | .out l => !isArtifactWatermark l
  | .region b body =>
    isArtifactWatermark b && body.all fun x => !(x == s2l "EMC")

/-! ## Lemmas about `remove_background` -/

/-- The end-marker line does not itself open an artifact region. -/
theorem artEMC : isArtifactWatermark (s2l "EMC") = false := by decide

/-- Unfolding `rbGo` over a concatenation: the state threads through. -/
theorem rbGo_append (xs : List (List Char)) :
    ∀ (f : Bool) (ys : List (List Char)),
      rbGo f (xs ++ ys) = rbGo f xs ++ rbGo (rbState f xs) ys := by
  induction xs with
  | nil => intro f ys; simp [rbGo, rbState]
  | cons l xs ih =>
    intro f ys
    by_cases h1 : isArtifactWatermark l = true
    · simp [rbGo, rbState, h1, ih]
    · rw [Bool.not_eq_true] at h1
      by_cases h2 : (l == s2l "EMC") = true
      · cases f
        · simp [rbGo, rbState, h1, h2, ih]
        · simp [rbGo, rbState, h1, h2, ih]
      · rw [Bool.not_eq_true] at h2
        cases f
        · simp [rbGo, rbState, h1, h2, ih]
        · simp [rbGo, rbState, h1, h2, ih]

/-- Inside a region, a tail with no end-marker is dropped entirely. -/
theorem rbGo_inside_noEMC (suf : List (List Char))
    (h : suf.all (fun l => !(l == s2l "EMC")) = true) :
    rbGo true suf = [] := by
  induction suf with
  | nil => rfl
  | cons l suf ih =>
    simp only [List.all_cons, Bool.and_eq_true, Bool.not_eq_true'] at h
    obtain ⟨h1, h2⟩ := h
    by_cases ha : isArtifactWatermark l = true
    · simp [rbGo, ha, ih h2]
    · rw [Bool.not_eq_true] at ha
      simp [rbGo, ha, h1, ih h2]

/-- A body of non-end-marker lines followed by the end-marker returns the
machine to the outside state, dropping everything consumed. -/
theorem rbGo_region (body rest : List (List Char))
    (h : body.all (fun x => !(x == s2l "EMC")) = true) :
    rbGo true (body ++ s2l "EMC" :: rest) = rbGo false rest := by
  induction body with
  | nil => simp [rbGo, artEMC]
  | cons x body ih =>
    simp only [List.all_cons, Bool.and_eq_true, Bool.not_eq_true'] at h
    obtain ⟨h1, h2⟩ := h
    by_cases ha : isArtifactWatermark x = true
    · simp [rbGo, ha, ih h2]
    · rw [Bool.not_eq_true] at ha
      simp [rbGo, ha, h1, ih h2]

/-- Consuming one well-formed piece from the outside state. -/
theorem rbGo_chunk (c : RChunk) (rest : List (List Char)) (h : c.wf = true) :
    rbGo false (c.render ++ rest) = c.kept ++ rbGo false rest := by
  cases c with
  | out l =>
    simp only [RChunk.wf, Bool.not_eq_true'] at h
    simp [RChunk.render, RChunk.kept, rbGo, h]
  | region b body =>
    simp only [RChunk.wf, Bool.and_eq_true] at h
    obtain ⟨h1, h2⟩ := h
    have e1 : (RChunk.region b body).render ++ rest = b :: (body ++ s2l "EMC" :: rest) := by
      simp [RChunk.render]
    rw [e1]
    have e2 : rbGo false (b :: (body ++ s2l "EMC" :: rest)) =
        rbGo true (body ++ s2l "EMC" :: rest) := by
      simp [rbGo, h1]
    rw [e2, rbGo_region body rest h2]
    rfl

/-- C1: For every content stream containing N well-formed
watermark-artifact regions (each opened by a line beginning with the
artifact marked-content operator and tagged with subtype "Watermark",
and closed by a matching end-marked-content line), `remove_background`
removes exactly the lines of those N regions, including both marker
lines, and emits every line outside those regions unchanged. -/
theorem artifact_regions_stripped_exactly (chunks : List RChunk)
    (h : chunks.all RChunk.wf = true) :
    remove_background (chunks.flatMap RChunk.render) =
      chunks.flatMap RChunk.kept := by
  unfold remove_background
  induction chunks with
  | nil => rfl
  | cons c cs ih =>
    simp only [List.all_cons, Bool.and_eq_true] at h
    obtain ⟨h1, h2⟩ := h
    simp only [List.flatMap_cons]
    rw [rbGo_chunk c _ h1, ih h2]

/-- Witness for C1 at a concrete three-piece stream with one region. -/
theorem artifact_regions_stripped_exactly_witness :
    ([RChunk.out (s2l "a"),
      RChunk.region (s2l "/Artifact <</Subtype /Watermark>> BDC") [s2l "x"],
      RChunk.out (s2l "b")].all RChunk.wf = true) ∧
    remove_background
        ([RChunk.out (s2l "a"),
          RChunk.region (s2l "/Artifact <</Subtype /Watermark>> BDC") [s2l "x"],
          RChunk.out (s2l "b")].flatMap RChunk.render) =
      [RChunk.out (s2l "a"),
        RChunk.region (s2l "/Artifact <</Subtype /Watermark>> BDC") [s2l "x"],
        RChunk.out (s2l "b")].flatMap RChunk.kept :=
  ⟨by decide, artifact_regions_stripped_exactly _ (by decide)⟩

/-- C3: For every content stream containing a watermark-artifact
begin-marker with no subsequent end-marked-content line,
`remove_background` drops the begin-marker line and every line after it:
the output is exactly the output for the prefix before the marker. -/
theorem unterminated_artifact_drops_tail (pre suf : List (List Char))
    (b : List Char) (hb : isArtifactWatermark b = true)
    (hs : suf.all (fun l => !(l == s2l "EMC")) = true) :
    remove_background (pre ++ b :: suf) = remove_background pre := by
  unfold remove_background
  rw [rbGo_append]
  have hz : rbGo (rbState false pre) (b :: suf) = [] := by
    have : rbGo (rbState false pre) (b :: suf) = rbGo true suf := by
      simp [rbGo, hb]
    rw [this]
    exact rbGo_inside_noEMC suf hs
  rw [hz, List.append_nil]

/-- Witness for C3 at a concrete stream with an unterminated region. -/
theorem unterminated_artifact_drops_tail_witness :
    (isArtifactWatermark (s2l "/Artifact <</Subtype /Watermark>> BDC") = true) ∧
    ([s2l "x", s2l "y"].all (fun l => !(l == s2l "EMC")) = true) ∧
    remove_background
        ([s2l "a"] ++ s2l "/Artifact <</Subtype /Watermark>> BDC" :: [s2l "x", s2l "y"]) =
      remove_background [s2l "a"] :=
  ⟨by decide, by decide,
    unterminated_artifact_drops_tail [s2l "a"] [s2l "x", s2l "y"] _ (by decide) (by decide)⟩

/-! ## Zero-match behaviour (claim C5) -/

/-- With no watermark begin-marker anywhere, `remove_background` keeps
every line. -/
theorem rbGo_no_marker (lines : List (List Char))
    (h : lines.all (fun l => !isArtifactWatermark l) = true) :
    rbGo false lines = lines := by
  induction lines with
  | nil => rfl
  | cons l ls ih =>
    simp only [List.all_cons, Bool.and_eq_true, Bool.not_eq_true'] at h
    obtain ⟨h1, h2⟩ := h
    simp [rbGo, h1, ih h2]

/-- An empty exclusion set keeps every line. -/
theorem keepIdx_nil (i : Nat) (l : List (List Char)) : keepIdx [] i l = l := by
  induction l generalizing i with
  | nil => rfl
  | cons x xs ih => simp [keepIdx, ih]

/-- C5 counterexample: the baseline stream `"q\n"` contains no watermark
begin-marker (the artifact target matches zero lines), yet the stored
stream after the pass is `"q"` — the `splitlines`/`join` round trip drops
the trailing line terminator, so the stored stream is not byte-identical
to the baseline. -/
theorem zero_match_not_byte_identical :
    remove_background (splitLinesPy (s2l "q\n")) = splitLinesPy (s2l "q\n") ∧
    remove_backgroundStream (s2l "q\n") ≠ s2l "q\n" := by decide

/-- C5 amended: stripping a target set that matches zero lines leaves the
line sequence unchanged, and stores back exactly the newline-join of the
baseline's lines (byte-identical to the baseline only when the baseline
itself is such a join, i.e. has no trailing line terminator); the
line-scan image stripper with zero matched lines likewise keeps every
line, provided no line of the stream is an `a`-spelling image operator
(a `findallCrash` line), on which the source's scan loop itself raises
`IndexError` for every target set. -/
theorem zero_match_join_of_lines (cs : List Char)
    (h : (splitLinesPy cs).all (fun l => !isArtifactWatermark l) = true)
    (hf : (splitLinesPy cs).all (fun l => !findallCrash l) = true) :
    remove_background (splitLinesPy cs) = splitLinesPy cs ∧
    remove_backgroundStream cs = joinNL (splitLinesPy cs) ∧
    (∀ image_list, matchedFrom image_list 0 (splitLinesPy cs) = [] →
      remove_image2 image_list (splitLinesPy cs) = some (splitLinesPy cs)) := by
  refine ⟨rbGo_no_marker _ h, ?_, ?_⟩
  · unfold remove_backgroundStream remove_background
    rw [rbGo_no_marker _ h]
  · intro image_list hm
    unfold remove_image2
    rw [hm]
    simp only [excludesAll]
    rw [keepIdx_nil]

/-- Witness for the amended C5 at the stream `"q\nQ"`. -/
theorem zero_match_join_of_lines_witness :
    ((splitLinesPy (s2l "q\nQ")).all (fun l => !isArtifactWatermark l) = true) ∧
    ((splitLinesPy (s2l "q\nQ")).all (fun l => !findallCrash l) = true) ∧
    (remove_background (splitLinesPy (s2l "q\nQ")) = splitLinesPy (s2l "q\nQ") ∧
      remove_backgroundStream (s2l "q\nQ") = joinNL (splitLinesPy (s2l "q\nQ")) ∧
      (∀ image_list, matchedFrom image_list 0 (splitLinesPy (s2l "q\nQ")) = [] →
        remove_image2 image_list (splitLinesPy (s2l "q\nQ")) =
          some (splitLinesPy (s2l "q\nQ")))) :=
  ⟨by decide, by decide, zero_match_join_of_lines _ (by decide) (by decide)⟩

/-! ## Order preservation (claim C6) -/

/-- `remove_background` emits a subsequence of its input. -/
theorem rbGo_sublist (f : Bool) (lines : List (List Char)) :
    List.Sublist (rbGo f lines) lines := by
  induction lines generalizing f with
  | nil => simp [rbGo]
  | cons l ls ih =>
    simp only [rbGo]
    split
    · exact List.Sublist.cons l (ih true)
    · split
      · exact List.Sublist.cons l (ih false)
      · split
        · exact List.Sublist.cons l (ih f)
        · exact List.Sublist.cons₂ l (ih false)

/-- The kept-lines pass of `remove_image2` emits a subsequence of its
input. -/
theorem keepIdx_sublist (ex : List Nat) (i : Nat) (lines : List (List Char)) :
    List.Sublist (keepIdx ex i lines) lines := by
  induction lines generalizing i with
  | nil => simp [keepIdx]
  | cons l ls ih =>
    simp only [keepIdx]
    split
    · exact List.Sublist.cons l (ih (i + 1))
    · exact List.Sublist.cons₂ l (ih (i + 1))

/-- C6: both the artifact-region stripper and the line-scan image
stripper preserve the relative input order of all retained lines: each
output is a subsequence of the input line sequence (so if line i precedes
line j in the input and both are retained, line i precedes line j in the
output). -/
theorem strip_order_preserved (cont0 image_list out : List (List Char))
    (h : remove_image2 image_list cont0 = some out) :
    List.Sublist (remove_background cont0) cont0 ∧ List.Sublist out cont0 := by
  constructor
  · exact rbGo_sublist false cont0
  · unfold remove_image2 at h
    cases hx : excludesAll cont0 (matchedFrom image_list 0 cont0) with
    | none => rw [hx] at h; cases h
    | some ex =>
      rw [hx] at h
      simp only [Option.some.injEq] at h
      rw [← h]
      exact keepIdx_sublist ex 0 cont0

/-- Witness for C6 at a concrete stream on which the image stripper
succeeds. -/
theorem strip_order_preserved_witness :
    (remove_image2 [s2l "7"] ([s2l "0 0 cm", s2l "/Im7 Do", s2l "Q", s2l "T"]) =
      some [s2l "Q", s2l "T"]) ∧
    (List.Sublist (remove_background [s2l "0 0 cm", s2l "/Im7 Do", s2l "Q", s2l "T"])
        [s2l "0 0 cm", s2l "/Im7 Do", s2l "Q", s2l "T"] ∧
      List.Sublist [s2l "Q", s2l "T"] [s2l "0 0 cm", s2l "/Im7 Do", s2l "Q", s2l "T"]) :=
  ⟨by decide,
    strip_order_preserved [s2l "0 0 cm", s2l "/Im7 Do", s2l "Q", s2l "T"]
      [s2l "7"] [s2l "Q", s2l "T"] (by decide)⟩

/-! ## Block boundaries of `remove_image2` (claims C2, C4, C10) -/

/-- Every index contributed by a matched occurrence ends up in the final
exclusion set. -/
theorem excludesAll_mem (cont0 : List (List Char)) (L : List Nat)
    (ex : List Nat) (hx : excludesAll cont0 L = some ex) (idx : Nat)
    (hidx : idx ∈ L) (c : List Nat) (hc : contrib cont0 idx = some c) :
    ∀ j ∈ c, j ∈ ex := by
  induction L generalizing ex with
  | nil => cases hidx
  | cons a L ih =>
    simp only [excludesAll] at hx
    cases hca : contrib cont0 a with
    | none => rw [hca] at hx; cases hx
    | some ca =>
      rw [hca] at hx
      cases hrest : excludesAll cont0 L with
      | none => rw [hrest] at hx; cases hx
      | some r =>
        rw [hrest] at hx
        simp only [Option.some.injEq] at hx
        subst hx
        rcases List.mem_cons.mp hidx with h | h
        · subst h
          rw [hca] at hc
          simp only [Option.some.injEq] at hc
          subst hc
          intro j hj
          exact List.mem_append_left _ hj
        · intro j hj
          exact List.mem_append_right _ (ih r hrest h j hj)

/-- C2 counterexample: on the stream `["0 0 cm", "/Im7 Do", "Q"]` with
target `"7"`, the backward scan gives `start = 0` and the forward scan
gives `end = 2`, yet the output still contains the state-restore line
`"Q"` at index `end` — the claim says the whole inclusive range
`[start, end]` is deleted, which would leave the empty output. -/
theorem image_block_end_retained :
    scanStart ([s2l "0 0 cm", s2l "/Im7 Do", s2l "Q"]) 1 = 0 ∧
    scanEnd ([s2l "0 0 cm", s2l "/Im7 Do", s2l "Q"]) 1 = some 2 ∧
    remove_image2 [s2l "7"] ([s2l "0 0 cm", s2l "/Im7 Do", s2l "Q"]) =
      some [s2l "Q"] ∧
    remove_image2 [s2l "7"] ([s2l "0 0 cm", s2l "/Im7 Do", s2l "Q"]) ≠
      some ([] : List (List Char)) := by decide

/-- C2 amended: for every matched occurrence within the 10-line bound,
the indices marked for deletion on account of that occurrence are exactly
the half-open range `[start, end)` — `range(start, end)` in the source —
and each of them is in the final exclusion set; the state-restore line at
index `end` itself is *not* part of that occurrence's deleted block. -/
theorem image_block_halfopen (cont0 image_list : List (List Char))
    (idx e : Nat) (ex : List Nat)
    (hm : idx ∈ matchedFrom image_list 0 cont0)
    (he : scanEnd cont0 idx = some e)
    (hb : e - scanStart cont0 idx ≤ 10)
    (hx : excludesAll cont0 (matchedFrom image_list 0 cont0) = some ex) :
    contrib cont0 idx =
      some (List.range' (scanStart cont0 idx) (e - scanStart cont0 idx)) ∧
    (∀ j, scanStart cont0 idx ≤ j → j < e → j ∈ ex) ∧
    e ∉ List.range' (scanStart cont0 idx) (e - scanStart cont0 idx) := by
  have hc : contrib cont0 idx =
      some (List.range' (scanStart cont0 idx) (e - scanStart cont0 idx)) := by
    unfold contrib
    rw [he]
    simp only [gt_iff_lt]
    rw [if_neg (by omega)]
  refine ⟨hc, ?_, ?_⟩
  · intro j h1 h2
    have hj : j ∈ List.range' (scanStart cont0 idx) (e - scanStart cont0 idx) := by
      rw [List.mem_range'_1]
      omega
    exact excludesAll_mem cont0 _ ex hx idx hm _ hc j hj
  · rw [List.mem_range'_1]
    omega

/-- Witness for the amended C2 at the counterexample stream. -/
theorem image_block_halfopen_witness :
    (1 ∈ matchedFrom [s2l "7"] 0 ([s2l "0 0 cm", s2l "/Im7 Do", s2l "Q"]) ∧
      scanEnd ([s2l "0 0 cm", s2l "/Im7 Do", s2l "Q"]) 1 = some 2 ∧
      2 - scanStart ([s2l "0 0 cm", s2l "/Im7 Do", s2l "Q"]) 1 ≤ 10 ∧
      excludesAll ([s2l "0 0 cm", s2l "/Im7 Do", s2l "Q"])
        (matchedFrom [s2l "7"] 0 ([s2l "0 0 cm", s2l "/Im7 Do", s2l "Q"])) =
        some [0, 1]) ∧
    (contrib ([s2l "0 0 cm", s2l "/Im7 Do", s2l "Q"]) 1 =
      some (List.range' (scanStart ([s2l "0 0 cm", s2l "/Im7 Do", s2l "Q"]) 1)
        (2 - scanStart ([s2l "0 0 cm", s2l "/Im7 Do", s2l "Q"]) 1)) ∧
    (∀ j, scanStart ([s2l "0 0 cm", s2l "/Im7 Do", s2l "Q"]) 1 ≤ j → j < 2 →
      j ∈ [0, 1]) ∧
    2 ∉ List.range' (scanStart ([s2l "0 0 cm", s2l "/Im7 Do", s2l "Q"]) 1)
      (2 - scanStart ([s2l "0 0 cm", s2l "/Im7 Do", s2l "Q"]) 1)) :=
  ⟨⟨by decide, by decide, by decide, by decide⟩,
    image_block_halfopen [s2l "0 0 cm", s2l "/Im7 Do", s2l "Q"] [s2l "7"] 1 2 [0, 1]
      (by decide) (by decide) (by decide) (by decide)⟩

/-- An occurrence whose contribution is empty leaves the exclusion set of
the remaining occurrences unchanged. -/
theorem excludesAll_skip (cont0 : List (List Char)) (m1 m2 : List Nat)
    (idx : Nat) (hc : contrib cont0 idx = some []) :
    excludesAll cont0 (m1 ++ idx :: m2) = excludesAll cont0 (m1 ++ m2) := by
  induction m1 with
  | nil =>
    simp only [List.nil_append, excludesAll, hc]
    cases excludesAll cont0 m2 <;> simp
  | cons a m1 ih =>
    simp only [List.cons_append, excludesAll, List.append_eq]
    rw [ih]

/-- C4: a matched occurrence whose inferred block spans more than 10
lines between transform and restore contributes nothing to the deletion
set — it is skipped and the remaining occurrences are processed exactly
as if it were absent; when it is the only occurrence, no line at all is
deleted. -/
theorem image_block_guard_skips (cont0 image_list : List (List Char))
    (m1 m2 : List Nat) (idx e : Nat)
    (hm : matchedFrom image_list 0 cont0 = m1 ++ idx :: m2)
    (he : scanEnd cont0 idx = some e)
    (hb : e - scanStart cont0 idx > 10) :
    excludesAll cont0 (matchedFrom image_list 0 cont0) =
      excludesAll cont0 (m1 ++ m2) ∧
    (m1 = [] → m2 = [] → remove_image2 image_list cont0 = some cont0) := by
  have hc : contrib cont0 idx = some [] := by
    unfold contrib
    rw [he]
    simp only [gt_iff_lt]
    rw [if_pos (by omega)]
  constructor
  · rw [hm]
    exact excludesAll_skip cont0 m1 m2 idx hc
  · intro h1 h2
    subst h1
    subst h2
    unfold remove_image2
    rw [hm]
    simp only [List.nil_append, excludesAll, hc]
    rw [keepIdx_nil]

/-- Witness for C4: a 13-line placement block (transform at 0, paint at
1, restore at 12) exceeds the bound, and the stream is left untouched. -/
theorem image_block_guard_skips_witness :
    (matchedFrom [s2l "7"] 0
        ((["0 0 cm", "/Im7 Do"] ++ List.replicate 10 "x" ++ ["Q"]).map s2l) =
      [] ++ 1 :: [] ∧
      scanEnd ((["0 0 cm", "/Im7 Do"] ++ List.replicate 10 "x" ++ ["Q"]).map s2l) 1 =
        some 12 ∧
      12 - scanStart ((["0 0 cm", "/Im7 Do"] ++ List.replicate 10 "x" ++ ["Q"]).map s2l) 1 >
        10) ∧
    remove_image2 [s2l "7"]
        ((["0 0 cm", "/Im7 Do"] ++ List.replicate 10 "x" ++ ["Q"]).map s2l) =
      some ((["0 0 cm", "/Im7 Do"] ++ List.replicate 10 "x" ++ ["Q"]).map s2l) :=
  ⟨⟨by decide, by decide, by decide⟩,
    (image_block_guard_skips
      ((["0 0 cm", "/Im7 Do"] ++ List.replicate 10 "x" ++ ["Q"]).map s2l)
      [s2l "7"] [] [] 1 12 (by decide) (by decide) (by decide)).2 rfl rfl⟩

/-- A matched occurrence whose forward scan finds no restore line aborts
the whole exclusion computation. -/
theorem excludesAll_none (cont0 : List (List Char)) (L : List Nat)
    (idx : Nat) (hidx : idx ∈ L) (hc : contrib cont0 idx = none) :
    excludesAll cont0 L = none := by
  induction L with
  | nil => cases hidx
  | cons a L ih =>
    rcases List.mem_cons.mp hidx with h | h
    · subst h
      simp only [excludesAll, hc]
    · simp only [excludesAll, ih h]
      cases contrib cont0 a <;> rfl

/-- C10: the forward scan of the line-scan image stripper is total only
when every matched line is followed by a later bare `"Q"` line; on a
stream where a matched line has no subsequent `"Q"`, the scan runs past
the end of the line sequence (`IndexError` in the source, modelled as
`none`) instead of terminating with a skipped occurrence. -/
theorem forward_scan_runs_past_end (cont0 image_list : List (List Char))
    (idx : Nat) (hm : idx ∈ matchedFrom image_list 0 cont0)
    (he : scanEnd cont0 idx = none) :
    remove_image2 image_list cont0 = none := by
  have hc : contrib cont0 idx = none := by
    unfold contrib
    rw [he]
  unfold remove_image2
  rw [excludesAll_none cont0 _ idx hm hc]

/-- Witness for C10: a matched image-paint line with no restore line
after it crashes the stripper. -/
theorem forward_scan_runs_past_end_witness :
    (1 ∈ matchedFrom [s2l "7"] 0 [s2l "0 0 cm", s2l "/Im7 Do"] ∧
      scanEnd [s2l "0 0 cm", s2l "/Im7 Do"] 1 = none) ∧
    remove_image2 [s2l "7"] [s2l "0 0 cm", s2l "/Im7 Do"] = none :=
  ⟨⟨by decide, by decide⟩,
    forward_scan_runs_past_end [s2l "0 0 cm", s2l "/Im7 Do"] [s2l "7"] 1
      (by decide) (by decide)⟩

/-! ## Sanitize pre-flight propagation (claim C7) -/

/-- C7: each page of a `run` job makes the same content-stream calls,
driven by the one pre-flight probe result: if the probe reported library
warnings, no page's trace contains the normalization call (raw path
everywhere); otherwise every page's trace starts with the normalization
call, before any stream read. -/
theorem sanitize_fallback_calls (warn : Bool) (image_list : List (List Char))
    (n : Nat) (c : List PCall) (hc : c ∈ runCalls warn image_list n) :
    (warn = true → PCall.clean ∉ c) ∧
    (warn = false → c.head? = some PCall.clean) := by
  have hcall : c = runPageCalls (test_cleanContents false warn) image_list :=
    List.eq_of_mem_replicate hc
  subst hcall
  constructor
  · intro hw
    subst hw
    show PCall.clean ∉ runPageCalls false image_list
    unfold runPageCalls remove_backgroundCalls remove_image3Calls
    cases h : image_list.isEmpty <;> simp
  · intro hw
    subst hw
    show (runPageCalls true image_list).head? = some PCall.clean
    unfold runPageCalls remove_backgroundCalls
    simp

/-- Witness for C7 on a one-page job whose probe reported warnings. -/
theorem sanitize_fallback_calls_witness :
    (runPageCalls (test_cleanContents false true) [] ∈ runCalls true [] 1) ∧
    ((true = true → PCall.clean ∉ runPageCalls (test_cleanContents false true) []) ∧
      (true = false →
        (runPageCalls (test_cleanContents false true) []).head? = some PCall.clean)) :=
  ⟨by decide, sanitize_fallback_calls true [] 1 _ (by decide)⟩

/-! ## Error propagation of `run` (claim C8) -/

/-- C8 counterexample: on a three-page job whose second page raises a
generic (non-open, non-save) strip error, the third page is never
processed (no progress event for it) and no structured error event is
emitted — only a console print, followed by the unconditional done
event.  This refutes both halves of the claim. -/
theorem strip_error_swallowed :
    runJob [false, true, false] =
      [JEvent.progress 1, JEvent.consoleLog, JEvent.doneEvent] ∧
    JEvent.progress 3 ∉ runJob [false, true, false] ∧
    JEvent.errorEvent ∉ runJob [false, true, false] := by decide

/-- The page loop aborts at the first raising page, printing to console. -/
theorem runLoop_abort (p1 : List Bool) (p2 : List Bool) (i : Nat)
    (h : p1.all (fun b => !b) = true) :
    runLoop i (p1 ++ true :: p2) =
      (List.range' i p1.length).map JEvent.progress ++ [JEvent.consoleLog] := by
  induction p1 generalizing i with
  | nil => simp [runLoop]
  | cons b p1 ih =>
    simp only [List.all_cons, Bool.and_eq_true, Bool.not_eq_true'] at h
    obtain ⟨h1, h2⟩ := h
    subst h1
    simp only [List.cons_append, runLoop, if_neg (by simp : ¬(false = true)),
      List.length_cons, List.append_eq]
    rw [List.range'_succ]
    simp only [List.map_cons, List.cons_append]
    rw [ih _ h2]

/-- C8 amended: any exception during a page's stripping — of any kind —
aborts processing of all remaining pages of the job; it is reported only
by a console print (no structured error event is emitted), and the
job-done event is still emitted afterwards. -/
theorem strip_error_aborts_job (p1 p2 : List Bool)
    (h : p1.all (fun b => !b) = true) :
    runJob (p1 ++ true :: p2) =
      (List.range' 1 p1.length).map JEvent.progress ++
        [JEvent.consoleLog, JEvent.doneEvent] ∧
    JEvent.errorEvent ∉ runJob (p1 ++ true :: p2) := by
  have hl := runLoop_abort p1 p2 1 h
  constructor
  · unfold runJob
    rw [hl]
    simp
  · unfold runJob
    rw [hl]
    simp

/-- Witness for the amended C8 on a two-page job whose second page
raises. -/
theorem strip_error_aborts_job_witness :
    ([false].all (fun b => !b) = true) ∧
    (runJob ([false] ++ true :: []) =
      (List.range' 1 [false].length).map JEvent.progress ++
        [JEvent.consoleLog, JEvent.doneEvent] ∧
      JEvent.errorEvent ∉ runJob ([false] ++ true :: [])) :=
  ⟨by decide, strip_error_aborts_job [false] [] (by decide)⟩

/-! ## Empty text-target set (claim C9) -/

/-- C9: with an empty target text set, `remove_text` returns immediately:
its external-call trace is empty — no search, no redaction registration,
no redaction apply — so the page is left untouched. -/
theorem remove_text_empty_no_calls (areas : List Char → Nat) :
    remove_text [] areas = [] := rfl
